import Mathlib

set_option maxHeartbeats 1000000

/- Verification of the TileStache static-map cache layer against its spec:
   `TileStache/Goodies/Caches/StaticMapCache.py` (class `Disk`),
   `TileStache/Goodies/StaticMapServer.py` (`getStaticMap`,
   `WSGIServer.__call__`) and `TileStache/Goodies/Providers/StaticMap.py`
   (`ll2px`, `px2ll`, `StaticMaps.addPath`).

   Machine floats are modelled as exact rationals (`ℚ`) where the code only
   performs field arithmetic and comparisons, and as exact reals (`ℝ`) where
   the code uses transcendental functions (`sin`, `log`, `atan`, `exp`, `pi`).
   Python `int(...)` conversion truncates toward zero and is modelled
   explicitly; fallible code returns `Except`. -/

/-- Image bytes, modelled as a list of octet values. -/
abbrev Bytes := List Nat

/-- Python error outcomes that the modelled code can raise. -/
inductive PyErr
  | attributeError
  | valueError
  | mathDomain
  deriving DecidableEq, Repr

/- ## Disk.lock (StaticMapCache.py lines 60-88), claim C1

The lock is a directory next to the tile file.  `Disk.lock` records
`due = time.time() + layer.stale_lock_timeout` once, on entry, and then loops:
if the current time exceeds `due` it first removes the marker (`os.rmdir`,
errors swallowed), then attempts `os.makedirs`; success breaks the loop,
`EEXIST` causes a 0.2 s sleep and a retry.  We model a single acquirer racing
a marker whose holder never releases it (the stale-holder situation the claim
is about); times are in seconds, as in the source. -/

/-- State of one acquirer inside the `while True` loop of `Disk.lock`:
`t` is the time in seconds since the acquirer called `lock` (attempts happen
at multiples of the 0.2 s backoff), and `marker` is `some c` when the lock
directory currently exists and was created at time `c` (relative to the
acquirer's arrival; negative `c` means it predates the acquirer). -/
structure LockState where
  t : ℚ
  marker : Option ℚ
  deriving DecidableEq, Repr

/-- One iteration of the loop body of `Disk.lock`: when `t > due`
(`due = stale_lock_timeout`, since the acquirer arrived at `t = 0`) the
acquirer force-removes the marker, then `os.makedirs` succeeds exactly when
no marker exists (`Sum.inr t` = lock acquired at time `t`); on `EEXIST` it
sleeps 0.2 s and will retry.  Note the marker's creation time (hence its
age) is never consulted — the source never `stat`s the lock path. -/
def lockStep (timeout : ℚ) (s : LockState) : LockState ⊕ ℚ :=
  let m := if s.t > timeout then none else s.marker
  match m with
  | some c => Sum.inl ⟨s.t + 1/5, some c⟩
  | none => Sum.inr s.t

/-- Fuelled run of the acquisition loop of `Disk.lock`; `some t` means the
lock was acquired at time `t`, `none` means the fuel ran out first. -/
def lockRun (timeout : ℚ) : ℕ → LockState → Option ℚ
  | 0, _ => none
  | fuel + 1, s =>
    match lockStep timeout s with
    | Sum.inr t => some t
    | Sum.inl s' => lockRun timeout fuel s'

/-- Number of 0.2 s backoff steps after which the acquirer's own wait first
exceeds `timeout`. -/
def lockSteps (timeout : ℚ) : ℕ := (⌊5 * timeout⌋ + 1).toNat

/- ## Disk.unlock (StaticMapCache.py lines 90-101), part of claim C2 -/

/-- `os.rmdir`: fails when the directory is absent, otherwise removes it.
The `Bool` result is the marker's presence afterwards. -/
def rmdir (present : Bool) : Except Unit Bool :=
  if present then Except.ok false else Except.error ()

/-- `Disk.unlock`: `os.rmdir` on the lock path with `OSError` swallowed
(`# Ok, someone else deleted it already`). -/
def Disk.unlock (present : Bool) : Except Unit Bool :=
  match rmdir present with
  | Except.ok b => Except.ok b
  | Except.error _ => Except.ok false

/- ## getStaticMap (StaticMapServer.py lines 62-141), claims C2 and C10 -/

/-- Cache/lock/render events performed by `getStaticMap`, in order. -/
inductive Ev
  | read
  | lock
  | render
  | save
  | unlock
  deriving DecidableEq, Repr

/-- Outcome of `layer.render(...)`: a tile, a `Core.NoTileLeftBehind`
carrying a tile, or any other exception. -/
inductive RenderOutcome
  | ok (tile : Bytes)
  | noTileLeftBehind (tile : Bytes)
  | failure
  deriving DecidableEq, Repr

/-- Errors surfaced by `getStaticMap`. -/
inductive GErr
  | unboundLocal
  | renderFailure
  | saveFailure
  deriving DecidableEq, Repr

/-- Shallow embedding of `getStaticMap`.  The environment supplies what the
collaborators would return: `read1`/`read2` are the two `cache.read` results,
`outcome` is the renderer's behaviour and `saveOk` tells whether `cache.save`
succeeds.  The Python local `body` is bound only inside
`if not ignore_cached:`, so at the `if body is None:` test it is modelled as
`Option (Option Bytes)` — `none` is the unbound local (referencing it raises
`UnboundLocalError`).  Returns the result together with the event trace. -/
def getStaticMap (ignore_cached write_cache : Bool) (read1 read2 : Option Bytes)
    (outcome : RenderOutcome) (saveOk : Bool) : Except GErr Bytes × List Ev :=
  let bound : Option (Option Bytes) := if ignore_cached then none else some read1
  let ev0 : List Ev := if ignore_cached then [] else [Ev.read]
  match bound with
  | none => (Except.error GErr.unboundLocal, ev0)
  | some (some b) => (Except.ok b, ev0)
  | some none =>
    -- `lockStaticMap = layer.staticmap; cache.lock(...)` when write_cache;
    -- the `finally:` block releases it on every exit path.
    let ev1 := ev0 ++ if write_cache then [Ev.lock] else []
    let fin : List Ev := if write_cache then [Ev.unlock] else []
    let body2 : Option Bytes := if ignore_cached then none else read2
    let ev2 := ev1 ++ if ignore_cached then [] else [Ev.read]
    match body2 with
    | some b => (Except.ok b, ev2 ++ fin)
    | none =>
      let ev3 := ev2 ++ [Ev.render]
      match outcome with
      | RenderOutcome.failure => (Except.error GErr.renderFailure, ev3 ++ fin)
      | RenderOutcome.noTileLeftBehind tile =>
        -- `save = False`: bytes are returned but not persisted.
        (Except.ok tile, ev3 ++ fin)
      | RenderOutcome.ok tile =>
        if write_cache then
          if saveOk then (Except.ok tile, ev3 ++ [Ev.save] ++ fin)
          else (Except.error GErr.saveFailure, ev3 ++ [Ev.save] ++ fin)
        else (Except.ok tile, ev3 ++ fin)

/-- Python `str.lower()` on ASCII strings, as a character-wise map (kept in
evaluable form). -/
def pyLower (s : String) : String := String.mk (s.data.map Char.toLower)

/- ## Filesystem model shared by Disk.save and Disk.read -/

/-- Filesystem operations issued by the `Disk` cache. -/
inductive FsOp
  | mkdirs (d : String)
  | mkstemp (dir suffix : String)
  | writeFd (b : Bytes)
  | closeFd
  | renameOp (src dst : String)
  | unlinkOp (p : String)
  | chmodOp (p : String) (m : ℕ)
  | existsOp (p : String)
  | statOp (p : String)
  | openRead (p : String)
  deriving DecidableEq, Repr

/-- A flat filesystem: association list from path to (bytes, mode). -/
abbrev FS := List (String × Bytes × ℕ)

def fsLookup (p : String) (fs : FS) : Option (Bytes × ℕ) :=
  (fs.find? (fun e => e.1 == p)).map (·.2)

def fsErase (p : String) (fs : FS) : FS :=
  fs.filter (fun e => e.1 != p)

def fsInsert (p : String) (v : Bytes × ℕ) (fs : FS) : FS :=
  (p, v) :: fsErase p fs

/-- `os.path.dirname` for `/`-separated paths. -/
def dirname (s : String) : String :=
  String.intercalate "/" (s.splitOn "/").dropLast

/-- `0666 & ~umask` (Python): `438` has only its low 9 bits set, so only the
low 9 bits of the complemented umask matter. -/
def modeOf (umask : ℕ) : ℕ := 438 &&& (511 ^^^ (umask &&& 511))

/- ## Disk.save (StaticMapCache.py lines 132-159), claim C3

`save` makedirs the parent (EEXIST tolerated), `mkstemp`s a fresh uniquely
named file in `self.cachepath` with suffix `.format.lower()`, writes the body
and closes it, renames it onto the canonical path — retrying exactly once
after `os.unlink(fullpath)` if the first rename raises `OSError` — and chmods
the result to `0666 & ~umask`.  `tmp` is the fresh path `mkstemp` returns;
`renameFail1`/`renameFail2` are the environment's verdicts on the two rename
attempts. -/
def Disk.save (cachepath fullpath tmp : String) (body : Bytes) (umask : ℕ)
    (format : String) (renameFail1 renameFail2 : Bool) (fs : FS) :
    Except Unit FS × List FsOp :=
  let suffix := "." ++ pyLower format
  let ops1 := [FsOp.mkdirs (dirname fullpath), FsOp.mkstemp cachepath suffix,
               FsOp.writeFd body, FsOp.closeFd]
  -- mkstemp creates the file with mode 0600 (= 384); os.write + os.close
  let fs1 := fsInsert tmp (body, 384) fs
  if renameFail1 then
    -- first `os.rename` raised OSError: `os.unlink(fullpath)` (unguarded —
    -- it raises if the destination is absent), then rename again, once.
    let ops2 := ops1 ++ [FsOp.renameOp tmp fullpath, FsOp.unlinkOp fullpath]
    match fsLookup fullpath fs1 with
    | none => (Except.error (), ops2)
    | some _ =>
      let fs2 := fsErase fullpath fs1
      let ops3 := ops2 ++ [FsOp.renameOp tmp fullpath]
      if renameFail2 then (Except.error (), ops3)
      else
        let fs3 := fsInsert fullpath (body, 384) (fsErase tmp fs2)
        (Except.ok (fsInsert fullpath (body, modeOf umask) fs3),
         ops3 ++ [FsOp.chmodOp fullpath (modeOf umask)])
  else
    let fs2 := fsInsert fullpath (body, 384) (fsErase tmp fs1)
    (Except.ok (fsInsert fullpath (body, modeOf umask) fs2),
     ops1 ++ [FsOp.renameOp tmp fullpath, FsOp.chmodOp fullpath (modeOf umask)])

/- ## Disk.read (StaticMapCache.py lines 115-130), claim C5 -/

/-- Shallow embedding of `Disk.read`: `entry` is the cached artifact for the
key (body and mtime) or `none`, `now` is `time.time()`.  Python's
`if layer.cache_lifespan and age > layer.cache_lifespan:` treats a zero (or
absent) lifespan as falsy, i.e. never expire.  Returns the result together
with the filesystem operations performed (the path argument records what the
code touches; `read` never removes anything). -/
def Disk.read (cache_lifespan : ℚ) (fullpath : String)
    (entry : Option (Bytes × ℚ)) (now : ℚ) : Option Bytes × List FsOp :=
  match entry with
  | none => (none, [FsOp.existsOp fullpath])
  | some (body, mtime) =>
    let age := now - mtime
    if cache_lifespan ≠ 0 ∧ age > cache_lifespan then
      (none, [FsOp.existsOp fullpath, FsOp.statOp fullpath])
    else
      (some body, [FsOp.existsOp fullpath, FsOp.statOp fullpath,
                   FsOp.openRead fullpath])

/- ## Disk._filepath (StaticMapCache.py lines 28-45), claims C4 and C7

The cache key: `layer/zoom/x/y_WxH[_icon].ext` with
`x = str(int((lon+180)*10000))`, `y = str(int((lat+90)*10000))`.  The
staticmap ducks (`_Loc`, `_Marker`, `_Path` from Providers/StaticMap.py) are
modelled with `ℚ` coordinates, since `_filepath` only uses field arithmetic
on them. -/

/-- `_Loc` duck (Providers/StaticMap.py lines 109-114). -/
structure PLoc where
  lat : ℚ
  lon : ℚ
  deriving DecidableEq, Repr

/-- `_Marker` duck (Providers/StaticMap.py lines 117-122). -/
structure PMarker where
  center : PLoc
  icon : String
  deriving DecidableEq, Repr

/-- `_Path` duck as seen by the cache (only its truthiness matters there). -/
structure PPath where
  polygon : List PLoc
  deriving DecidableEq, Repr

/-- `StaticMaps` (Providers/StaticMap.py lines 140-148) with `ℚ`
coordinates; `center`, `marker` and `path` start as `None`. -/
structure StaticMapsQ where
  width : ℕ
  height : ℕ
  zoom : ℤ
  center : Option PLoc
  marker : Option PMarker
  path : Option PPath
  deriving DecidableEq, Repr

/-- Python `int(...)` on a rational: truncation toward zero. -/
def pyInt (q : ℚ) : ℤ := if 0 ≤ q then ⌊q⌋ else ⌈q⌉

/-- `os.path.basename` for `/`-separated paths. -/
def basename (s : String) : String := (s.splitOn "/").getLastD ""

/-- Shallow embedding of `Disk._filepath`.  Accessing `.lon` on a `None`
center raises `AttributeError`; the source evaluates `staticmap.center.lon`
before testing `staticmap.marker`/`staticmap.path`.  The `marker` and `path`
branches are kept separate exactly as in the source (the `path` arm produces
the same filename as the plain arm). -/
def Disk.filepath (layerName : String) (sm : StaticMapsQ) (format : String) :
    Except PyErr String :=
  match sm.center with
  | none => Except.error PyErr.attributeError
  | some c =>
    let l := layerName
    let z := toString sm.zoom
    let e := pyLower format
    let x := toString (pyInt ((c.lon + 180) * 10000))
    let y := toString (pyInt ((c.lat + 90) * 10000))
    let size := toString sm.width ++ "x" ++ toString sm.height
    match sm.marker with
    | some m =>
      let icon := (basename m.icon).replace "." "-"
      Except.ok (l ++ "/" ++ z ++ "/" ++ x ++ "/" ++ y ++ "_" ++ size ++ "_"
                 ++ icon ++ "." ++ e)
    | none =>
      match sm.path with
      | some _ =>
        Except.ok (l ++ "/" ++ z ++ "/" ++ x ++ "/" ++ y ++ "_" ++ size ++ "."
                   ++ e)
      | none =>
        Except.ok (l ++ "/" ++ z ++ "/" ++ x ++ "/" ++ y ++ "_" ++ size ++ "."
                   ++ e)

/- ## WSGIServer.__call__, plain-center branch (StaticMapServer.py lines
177-196), claim C7

With neither `markers` nor `path` in the query the handler builds
`layer.staticmap = StaticMaps(w, h, zoom)` and then parses the `center`
parameter into the locals `lat, lon` — which are never stored anywhere: the
staticmap's `center` attribute remains `None`. -/
def wsgiBuildPlainStaticMap (w h : ℕ) (zoom : ℤ) (centerParam : ℚ × ℚ) :
    StaticMapsQ :=
  -- `lat, lon = [float(p) for p in query['center'].split(',')]` — parsed,
  -- then dropped on the floor.
  let _parsedCenter := centerParam
  { width := w, height := h, zoom := zoom,
    center := none, marker := none, path := none }

/- ## Projection math (Providers/StaticMap.py lines 51-107), claim C8

The constant tables `CBK`, `CEK`, `CFK` are copied from the source (float
literals read as exact reals); index `zoom` runs over `0..30`. -/

def CBKtable : List ℝ :=
  [128, 256, 512, 1024, 2048, 4096, 8192, 16384, 32768, 65536, 131072,
   262144, 524288, 1048576, 2097152, 4194304, 8388608, 16777216, 33554432,
   67108864, 134217728, 268435456, 536870912, 1073741824, 2147483648,
   4294967296, 8589934592, 17179869184, 34359738368, 68719476736,
   137438953472]

def CEKtable : List ℝ :=
  [0.7111111111111111, 1.4222222222222223, 2.8444444444444446,
   5.688888888888889, 11.377777777777778, 22.755555555555556,
   45.51111111111111, 91.02222222222223, 182.04444444444445,
   364.0888888888889, 728.1777777777778, 1456.3555555555556,
   2912.711111111111, 5825.422222222222, 11650.844444444445,
   23301.68888888889, 46603.37777777778, 93206.75555555556,
   186413.51111111112, 372827.02222222224, 745654.0444444445,
   1491308.088888889, 2982616.177777778, 5965232.355555556,
   11930464.711111112, 23860929.422222223, 47721858.844444446,
   95443717.68888889, 190887435.37777779, 381774870.75555557,
   763549741.5111111]

def CFKtable : List ℝ :=
  [40.74366543152521, 81.48733086305042, 162.97466172610083,
   325.94932345220167, 651.8986469044033, 1303.7972938088067,
   2607.5945876176133, 5215.189175235227, 10430.378350470453,
   20860.756700940907, 41721.51340188181, 83443.02680376363,
   166886.05360752725, 333772.1072150545, 667544.214430109,
   1335088.428860218, 2670176.857720436, 5340353.715440872,
   10680707.430881744, 21361414.86176349, 42722829.72352698,
   85445659.44705395, 170891318.8941079, 341782637.7882158,
   683565275.5764316, 1367130551.1528633, 2734261102.3057265,
   5468522204.611453, 10937044409.222906, 21874088818.445812,
   43748177636.891624]

def CBK (z : ℕ) : ℝ := CBKtable.getD z 0

def CEK (z : ℕ) : ℝ := CEKtable.getD z 0

def CFK (z : ℕ) : ℝ := CFKtable.getD z 0

/-- Python 2 `int(round(v))`: `round` rounds half away from zero, `int`
truncation is then the identity. -/
noncomputable def pyRound (v : ℝ) : ℤ := if 0 ≤ v then ⌊v + 1/2⌋ else ⌈v - 1/2⌉

/-- Python `int(...)` on a real: truncation toward zero. -/
noncomputable def pyTruncR (v : ℝ) : ℤ := if 0 ≤ v then ⌊v⌋ else ⌈v⌉

/-- The clamp of `sin(lat * pi / 180)` in `ll2px` (lines 77-81): keeps the
Mercator formula away from its poles. -/
noncomputable def clampSin (s : ℝ) : ℝ :=
  if s < -0.9999 then -0.9999 else if s > 0.9999 then 0.9999 else s

/-- `ll2px(lat, lng, zoom)` (lines 59-85): geographic coordinates to integer
full-world pixel coordinates. -/
noncomputable def ll2px (lat lng : ℝ) (zoom : ℕ) : ℤ × ℤ :=
  let cbk := CBK zoom
  let x := pyRound (cbk + lng * CEK zoom)
  let foo := clampSin (Real.sin (lat * Real.pi / 180))
  let y := pyRound (cbk + 0.5 * Real.log ((1 + foo) / (1 - foo)) * (-(CFK zoom)))
  (x, y)

/-- `px2ll(x, y, zoom)` (lines 87-107): inverse of `ll2px`. -/
noncomputable def px2ll (x y : ℤ) (zoom : ℕ) : ℝ × ℝ :=
  let foo := CBK zoom
  let lng := ((x : ℝ) - foo) / CEK zoom
  let bar := ((y : ℝ) - foo) / (-(CFK zoom))
  let blam := 2 * Real.arctan (Real.exp bar) - Real.pi / 2
  (blam / (Real.pi / 180), lng)

/-- The unrounded horizontal pixel coordinate of a longitude (the expression
`ll2px` rounds).  Used to state round-trip error in pixel units. -/
noncomputable def xFwd (lng : ℝ) (zoom : ℕ) : ℝ := CBK zoom + lng * CEK zoom

/-- The unrounded vertical pixel coordinate of a latitude (the expression
`ll2px` rounds).  Used to state round-trip error in pixel units. -/
noncomputable def yFwd (lat : ℝ) (zoom : ℕ) : ℝ :=
  let foo := clampSin (Real.sin (lat * Real.pi / 180))
  CBK zoom + 0.5 * Real.log ((1 + foo) / (1 - foo)) * (-(CFK zoom))

/- ## StaticMaps.addPath (Providers/StaticMap.py lines 166-186), claims C6
and C9 -/

/-- `_Loc` with real coordinates. -/
structure PLocR where
  lat : ℝ
  lon : ℝ

/-- `_Path` duck (lines 125-138): `addLoc` appends to `polygon` and resets
`center` to the point just added; `_Path()` defaults are
`color="F00"`, `weight=1`. -/
structure PPathR where
  center : Option PLocR
  color : String
  weight : ℕ
  polygon : List PLocR

def PPathR.addLoc (pa : PPathR) (lat lon : ℝ) : PPathR :=
  { pa with polygon := pa.polygon ++ [⟨lat, lon⟩], center := some ⟨lat, lon⟩ }

/-- `StaticMaps` with real coordinates, for the provider-side math. -/
structure StaticMapsR where
  width : ℕ
  height : ℕ
  zoom : ℤ
  center : Option PLocR
  marker : Option PMarker
  path : Option PPathR

/-- Python `min(...)` over a list comprehension: raises `ValueError` on an
empty list, otherwise folds `min`. -/
def pyListMin : List ℝ → Option ℝ
  | [] => none
  | h :: t => some (t.foldl min h)

/-- Python `max(...)` over a list comprehension. -/
def pyListMax : List ℝ → Option ℝ
  | [] => none
  | h :: t => some (t.foldl max h)

/-- `merc_radius = 85445659.44705395` (line 180). -/
def mercRadius : ℝ := 85445659.44705395

open scoped Classical in
/-- Shallow embedding of `StaticMaps.addPath` (lines 166-186).  The points
are the parsed `path['points']` pairs `(lat, lon)`.  The bounding box is
taken with Python `min`/`max` (`ValueError` on an empty list);
`math.log(x, 2)` raises a math domain `ValueError` for `x ≤ 0`, and the
lat-extent axis (`zoomLon`, using the image height) is evaluated first, as
in the source.  `int(...)` truncates toward zero.  The computed zoom
`min(zoomLat, zoomLon) - 180` overwrites whatever zoom the caller supplied. -/
noncomputable def StaticMaps.addPath (sm : StaticMapsR) (points : List (ℝ × ℝ)) :
    Except PyErr StaticMapsR :=
  let pathObj := points.foldl (fun pa p => pa.addLoc p.1 p.2) ⟨none, "F00", 1, []⟩
  match pyListMin (points.map Prod.fst), pyListMax (points.map Prod.fst),
        pyListMin (points.map Prod.snd), pyListMax (points.map Prod.snd) with
  | some minLat, some maxLat, some minLon, some maxLon =>
    let center : PLocR := ⟨(minLat + maxLat) / 2, (minLon + maxLon) / 2⟩
    let x := ((maxLat - minLat) * mercRadius * Real.pi) / (180 * sm.height)
    if x ≤ 0 then Except.error PyErr.mathDomain
    else
      let zoomLon := 21 - pyTruncR (Real.logb 2 x)
      let y := ((maxLon - minLon) * mercRadius * Real.pi) / (180 * sm.width)
      if y ≤ 0 then Except.error PyErr.mathDomain
      else
        let zoomLat := 21 - pyTruncR (Real.logb 2 y)
        Except.ok { sm with path := some pathObj, center := some center,
                            zoom := min zoomLat zoomLon - 180 }
  | _, _, _, _ => Except.error PyErr.valueError

/-- Modelled from the spec (claim C6): the per-axis zoom
`21 - floor(log2(x))` with `x` the axis's degree extent scaled by
`merc_radius * pi / (180 * dimension)`. -/
noncomputable def specAxisZoomFloor (extent : ℝ) (dim : ℕ) : ℤ :=
  21 - ⌊Real.logb 2 ((extent * mercRadius * Real.pi) / (180 * dim))⌋

/-- Modelled from the spec (claim C6): `min(zoomLat, zoomLon) - 180`, where
`zoomLat` comes from the longitude extent and the image width and `zoomLon`
from the latitude extent and the image height (the source's pairing). -/
noncomputable def specPathZoomFloor (latExtent lonExtent : ℝ) (w h : ℕ) : ℤ :=
  min (specAxisZoomFloor lonExtent w) (specAxisZoomFloor latExtent h) - 180

/-- The amended per-axis zoom: as `specAxisZoomFloor` but with Python's
`int(...)` truncation toward zero, which is what the source computes. -/
noncomputable def specAxisZoomTrunc (extent : ℝ) (dim : ℕ) : ℤ :=
  21 - pyTruncR (Real.logb 2 ((extent * mercRadius * Real.pi) / (180 * dim)))

/-- The amended zoom formula with truncation toward zero. -/
noncomputable def specPathZoomTrunc (latExtent lonExtent : ℝ) (w h : ℕ) : ℤ :=
  min (specAxisZoomTrunc lonExtent w) (specAxisZoomTrunc latExtent h) - 180

/- ## Claim C1 -/

/-- Claim C1 fails on the code: with `stale_lock_timeout = 1` s, an acquirer
arriving at a marker that is already 100 s old (far beyond the timeout)
still sleeps through six full 0.2 s backoff cycles and acquires only at
t = 1.2 s — exactly the same wait as for a marker created at the moment of
arrival — because `Disk.lock` compares the current time against
`due = arrival + stale_lock_timeout` and never consults the marker's age.
Moreover an acquirer whose own wait has passed `due` removes and takes over
a marker that is only 0.2 s old (its age well within the timeout). -/
theorem lock_stale_marker_counterexample :
    lockRun 1 10 ⟨0, some (-100)⟩ = some (6/5)
    ∧ lockRun 1 10 ⟨0, some 0⟩ = some (6/5)
    ∧ (6/5 : ℚ) ≠ 0
    ∧ lockStep 1 ⟨6/5, some 1⟩ = Sum.inr (6/5)
    ∧ (6/5 : ℚ) - 1 < 1 := by
  refine ⟨?_, ?_, by norm_num, ?_, by norm_num⟩ <;>
    norm_num [lockRun, lockStep]

/-- Helper for C1: against a marker whose holder never releases, the
acquisition loop started at attempt `k` (time `k/5`) acquires exactly at
attempt `lockSteps timeout`, whatever the marker's creation time `c`. -/
theorem lockRun_dead_holder (timeout c : ℚ) (ht : 0 ≤ timeout) :
    ∀ fuel k, lockSteps timeout - k < fuel → k ≤ lockSteps timeout →
      lockRun timeout fuel ⟨(k : ℚ) / 5, some c⟩
        = some ((lockSteps timeout : ℚ) / 5) := by
  have hn : (lockSteps timeout : ℤ) = ⌊5 * timeout⌋ + 1 := by
    have h0 : (0 : ℤ) ≤ ⌊5 * timeout⌋ := by
      have : (0 : ℚ) ≤ 5 * timeout := by linarith
      exact Int.floor_nonneg.mpr this
    simp only [lockSteps]
    omega
  have key : ∀ k : ℕ, ((k : ℚ) / 5 > timeout ↔ lockSteps timeout ≤ k) := by
    intro k
    constructor
    · intro h
      have h5 : 5 * timeout < (k : ℚ) := by linarith
      have : ⌊5 * timeout⌋ < (k : ℤ) := Int.floor_lt.mpr (by exact_mod_cast h5)
      omega
    · intro h
      have hzk : ⌊5 * timeout⌋ < (k : ℤ) := by omega
      have h5 : 5 * timeout < ((k : ℤ) : ℚ) := Int.floor_lt.mp hzk
      push_cast at h5
      linarith
  intro fuel
  induction fuel with
  | zero => intro k h _; omega
  | succ fuel ih =>
    intro k hfuel hk
    by_cases hgt : (k : ℚ) / 5 > timeout
    · have hkn : lockSteps timeout = k := le_antisymm ((key k).mp hgt) hk
      simp [lockRun, lockStep, hgt, hkn]
    · have hlt : k < lockSteps timeout := by
        rcases lt_or_eq_of_le hk with h | h
        · exact h
        · exact absurd ((key k).mpr (le_of_eq h.symm)) hgt
      have hstep : (k : ℚ) / 5 + 1 / 5 = ((k + 1 : ℕ) : ℚ) / 5 := by
        push_cast; ring
      simp only [lockRun, lockStep, if_neg (not_lt.mpr (le_of_not_lt hgt))]
      rw [hstep] at *
      exact ih (k + 1) (by omega) hlt

/-- Claim C1 (amended): `Disk.lock` reclaims an existing lock marker exactly
when the acquirer's own elapsed wait exceeds `stale_lock_timeout`
(`due = arrival + timeout`); the marker's age is never consulted.  Against a
holder that never releases, acquisition therefore happens at the first
0.2 s backoff multiple strictly past the timeout — independent of the
marker's creation time `c` — with a 200 ms sleep after each failed attempt,
and ownership is decided solely by whose atomic directory creation
(`os.makedirs`) succeeds: a step returns "acquired" iff the marker slot is
free after the wait-based removal. -/
theorem lock_reclaim_by_acquirer_wait (timeout c : ℚ) (fuel : ℕ)
    (ht : 0 ≤ timeout) (hfuel : lockSteps timeout < fuel) :
    lockRun timeout fuel ⟨0, some c⟩ = some ((lockSteps timeout : ℚ) / 5)
    ∧ (∀ t c', lockStep timeout ⟨t, some c'⟩ = Sum.inr t ↔ t > timeout) := by
  constructor
  · have h := lockRun_dead_holder timeout c ht fuel 0 (by omega) (Nat.zero_le _)
    simpa using h
  · intro t c'
    unfold lockStep
    by_cases h : t > timeout
    · simp [h]
    · simp [h]

/-- Witness for `lock_reclaim_by_acquirer_wait` at `timeout = 1` s,
marker created 7 s before arrival, fuel 20: the hypotheses hold and the
lock is acquired at `6/5` s (`lockSteps 1 = 6` backoff steps of 0.2 s). -/
theorem lock_reclaim_by_acquirer_wait_witness :
    (0 : ℚ) ≤ 1 ∧ lockSteps 1 < 20
    ∧ lockRun 1 20 ⟨0, some (-7)⟩ = some ((lockSteps 1 : ℚ) / 5) :=
  ⟨by norm_num, by norm_num [lockSteps],
   (lock_reclaim_by_acquirer_wait 1 (-7) 20 (by norm_num)
     (by norm_num [lockSteps])).1⟩

/- ## Claim C2 -/

/-- Claim C2: in every execution of `getStaticMap` (with `ignore_cached`
false, its only working mode) that acquires the cache lock — i.e.
`layer.write_cache` is true and the initial cache read missed —
`cache.unlock` runs exactly once whatever the outcome: second-read hit,
successful render, `NoTileLeftBehind`, renderer exception, or save failure;
when the initial read hits, no lock is taken and no unlock happens; and
`Disk.unlock` on an already-absent marker is a no-op, not an error. -/
theorem getStaticMap_unlock_exactly_once
    (write_cache : Bool) (read1 read2 : Option Bytes)
    (outcome : RenderOutcome) (saveOk : Bool) :
    (read1 = none → write_cache = true →
      ((getStaticMap false write_cache read1 read2 outcome saveOk).2.count Ev.unlock = 1
       ∧ (getStaticMap false write_cache read1 read2 outcome saveOk).2.count Ev.lock = 1))
    ∧ (∀ b, read1 = some b →
      ((getStaticMap false write_cache read1 read2 outcome saveOk).2.count Ev.lock = 0
       ∧ (getStaticMap false write_cache read1 read2 outcome saveOk).2.count Ev.unlock = 0))
    ∧ (∀ present, Disk.unlock present = Except.ok false) := by
  refine ⟨?_, ?_, ?_⟩
  · rintro rfl rfl
    rcases read2 with _ | b2 <;> rcases outcome with t | t | _ <;> cases saveOk <;>
      simp [getStaticMap, List.count_cons, List.count_nil]
  · rintro b rfl
    simp [getStaticMap]
  · intro present
    cases present <;> rfl

/-- Witness for `getStaticMap_unlock_exactly_once`: a concrete run with
`write_cache = true`, both reads missing and a successful render unlocks
exactly once, and a cache hit takes no lock. -/
theorem getStaticMap_unlock_exactly_once_witness :
    ((getStaticMap false true none none (RenderOutcome.ok [7]) true).2.count Ev.unlock = 1
     ∧ (getStaticMap false true none none (RenderOutcome.ok [7]) true).2.count Ev.lock = 1)
    ∧ ((getStaticMap false true (some [9]) none (RenderOutcome.ok [7]) true).2.count Ev.lock = 0
     ∧ (getStaticMap false true (some [9]) none (RenderOutcome.ok [7]) true).2.count Ev.unlock = 0) :=
  ⟨(getStaticMap_unlock_exactly_once true none none (RenderOutcome.ok [7]) true).1
     rfl rfl,
   (getStaticMap_unlock_exactly_once true (some [9]) none (RenderOutcome.ok [7]) true).2.1
     [9] rfl⟩

/- ## Claim C10 -/

/-- Claim C10: with `ignore_cached = True`, `getStaticMap` fails with an
unbound-local error before doing anything at all: the `else` branch never
assigns `body`, so `if body is None:` raises `UnboundLocalError` — no cache
read, no lock, no render ever happens, and the documented always-re-render
mode can never complete. -/
theorem getStaticMap_ignore_cached_unbound
    (write_cache : Bool) (read1 read2 : Option Bytes)
    (outcome : RenderOutcome) (saveOk : Bool) :
    getStaticMap true write_cache read1 read2 outcome saveOk
      = (Except.error GErr.unboundLocal, [])
    ∧ Ev.lock ∉ (getStaticMap true write_cache read1 read2 outcome saveOk).2
    ∧ Ev.render ∉ (getStaticMap true write_cache read1 read2 outcome saveOk).2 := by
  refine ⟨rfl, ?_, ?_⟩ <;> simp [getStaticMap]

/- ## Claim C3 -/

theorem fsLookup_erase_self (p : String) (fs : FS) :
    fsLookup p (fsErase p fs) = none := by
  induction fs with
  | nil => rfl
  | cons e t ih =>
    by_cases h : e.1 = p
    · have h1 : fsErase p (e :: t) = fsErase p t := by
        simp [fsErase, List.filter_cons, h]
      rw [h1]; exact ih
    · have h1 : fsErase p (e :: t) = e :: fsErase p t := by
        simp [fsErase, List.filter_cons, h]
      rw [h1]
      show (List.find? (fun e => e.1 == p) (e :: fsErase p t)).map (·.2) = none
      rw [List.find?_cons_of_neg _ (by simp [h])]
      exact ih

theorem fsLookup_erase_ne {p q : String} (h : p ≠ q) (fs : FS) :
    fsLookup p (fsErase q fs) = fsLookup p fs := by
  induction fs with
  | nil => rfl
  | cons e t ih =>
    by_cases he : e.1 = q
    · have h1 : fsErase q (e :: t) = fsErase q t := by
        simp [fsErase, List.filter_cons, he]
      have hep : ¬ e.1 = p := fun hp => h (by rw [← hp]; exact he)
      have h2 : fsLookup p (e :: t) = fsLookup p t := by
        show (List.find? (fun e => e.1 == p) (e :: t)).map (·.2) = _
        rw [List.find?_cons_of_neg _ (by simp [hep])]
        rfl
      rw [h1, h2]; exact ih
    · have h1 : fsErase q (e :: t) = e :: fsErase q t := by
        simp [fsErase, List.filter_cons, he]
      rw [h1]
      by_cases hp : e.1 = p
      · show (List.find? (fun e => e.1 == p) (e :: fsErase q t)).map (·.2)
            = (List.find? (fun e => e.1 == p) (e :: t)).map (·.2)
        rw [List.find?_cons_of_pos _ (by simp [hp]),
            List.find?_cons_of_pos _ (by simp [hp])]
      · show (List.find? (fun e => e.1 == p) (e :: fsErase q t)).map (·.2)
            = (List.find? (fun e => e.1 == p) (e :: t)).map (·.2)
        rw [List.find?_cons_of_neg _ (by simp [hp]),
            List.find?_cons_of_neg _ (by simp [hp])]
        exact ih

theorem fsLookup_insert_self (p : String) (v : Bytes × ℕ) (fs : FS) :
    fsLookup p (fsInsert p v fs) = some v := by
  show (List.find? (fun e => e.1 == p) ((p, v) :: fsErase p fs)).map (·.2) = some v
  rw [List.find?_cons_of_pos _ (by simp)]
  rfl

theorem fsLookup_insert_ne {p q : String} (h : p ≠ q) (v : Bytes × ℕ) (fs : FS) :
    fsLookup p (fsInsert q v fs) = fsLookup p fs := by
  show (List.find? (fun e => e.1 == p) ((q, v) :: fsErase q fs)).map (·.2) = _
  rw [List.find?_cons_of_neg _ (by simp [Ne.symm h])]
  exact fsLookup_erase_ne h fs

/-- Claim C3: `Disk.save` writes the body to the fresh temporary file that
`mkstemp` creates inside the cache storage root (suffix `.format.lower()`),
closes it, then renames it onto the key's canonical path; when that first
rename raises an `OSError` it removes the existing destination and retries
the rename exactly once (two rename attempts in total, an `unlink` in
between); the parent directory is created on demand before anything else;
and on success the artifact at `fullpath` holds exactly `body` with
permission mode `0666 & ~umask`, while the temporary name is gone. -/
theorem disk_save_atomic_publish
    (cachepath fullpath tmp : String) (body : Bytes) (umask : ℕ) (format : String)
    (renameFail1 : Bool) (fs : FS)
    (htmp : tmp ≠ fullpath)
    (hdest : renameFail1 = true → fsLookup fullpath fs ≠ none) :
    ∃ fs' : FS,
      (Disk.save cachepath fullpath tmp body umask format renameFail1 false fs).1
        = Except.ok fs'
      ∧ fsLookup fullpath fs' = some (body, modeOf umask)
      ∧ fsLookup tmp fs' = none
      ∧ (Disk.save cachepath fullpath tmp body umask format renameFail1 false fs).2.take 5
          = [FsOp.mkdirs (dirname fullpath),
             FsOp.mkstemp cachepath ("." ++ pyLower format),
             FsOp.writeFd body, FsOp.closeFd, FsOp.renameOp tmp fullpath]
      ∧ (Disk.save cachepath fullpath tmp body umask format renameFail1 false fs).2.count
          (FsOp.renameOp tmp fullpath) = (if renameFail1 then 2 else 1)
      ∧ (renameFail1 = true →
          FsOp.unlinkOp fullpath
            ∈ (Disk.save cachepath fullpath tmp body umask format renameFail1 false fs).2)
      ∧ (Disk.save cachepath fullpath tmp body umask format renameFail1 false fs).2.getLast?
          = some (FsOp.chmodOp fullpath (modeOf umask)) := by
  have hft : fullpath ≠ tmp := Ne.symm htmp
  cases renameFail1 with
  | false =>
    have hsave : Disk.save cachepath fullpath tmp body umask format false false fs
        = (Except.ok (fsInsert fullpath (body, modeOf umask)
            (fsInsert fullpath (body, 384) (fsErase tmp (fsInsert tmp (body, 384) fs)))),
           [FsOp.mkdirs (dirname fullpath), FsOp.mkstemp cachepath ("." ++ pyLower format),
            FsOp.writeFd body, FsOp.closeFd, FsOp.renameOp tmp fullpath,
            FsOp.chmodOp fullpath (modeOf umask)]) := by
      simp [Disk.save]
    refine ⟨fsInsert fullpath (body, modeOf umask)
        (fsInsert fullpath (body, 384) (fsErase tmp (fsInsert tmp (body, 384) fs))),
      ?_, fsLookup_insert_self _ _ _, ?_, ?_, ?_, ?_, ?_⟩
    · rw [hsave]
    · rw [fsLookup_insert_ne htmp, fsLookup_insert_ne htmp, fsLookup_erase_self]
    · rw [hsave]; rfl
    · rw [hsave]; simp [List.count_cons]
    · intro h
      exact absurd h (by simp)
    · rw [hsave]; rfl
  | true =>
    have hsome : ∃ v, fsLookup fullpath (fsInsert tmp (body, 384) fs) = some v := by
      rw [fsLookup_insert_ne hft]
      rcases hv : fsLookup fullpath fs with _ | v
      · exact absurd hv (hdest rfl)
      · exact ⟨v, rfl⟩
    rcases hsome with ⟨v, hv⟩
    have hsave : Disk.save cachepath fullpath tmp body umask format true false fs
        = (Except.ok (fsInsert fullpath (body, modeOf umask)
            (fsInsert fullpath (body, 384)
              (fsErase tmp (fsErase fullpath (fsInsert tmp (body, 384) fs))))),
           [FsOp.mkdirs (dirname fullpath), FsOp.mkstemp cachepath ("." ++ pyLower format),
            FsOp.writeFd body, FsOp.closeFd, FsOp.renameOp tmp fullpath,
            FsOp.unlinkOp fullpath, FsOp.renameOp tmp fullpath,
            FsOp.chmodOp fullpath (modeOf umask)]) := by
      simp [Disk.save, hv]
    refine ⟨fsInsert fullpath (body, modeOf umask)
        (fsInsert fullpath (body, 384)
          (fsErase tmp (fsErase fullpath (fsInsert tmp (body, 384) fs)))),
      ?_, fsLookup_insert_self _ _ _, ?_, ?_, ?_, ?_, ?_⟩
    · rw [hsave]
    · rw [fsLookup_insert_ne htmp, fsLookup_insert_ne htmp, fsLookup_erase_self]
    · rw [hsave]; rfl
    · rw [hsave]; simp [List.count_cons]
    · intro _
      rw [hsave]; simp
    · rw [hsave]; rfl

/-- Witness for `disk_save_atomic_publish`: concrete inputs exercising the
rename-retry path (first rename fails, destination exists). -/
theorem disk_save_atomic_publish_witness :
    ("cache/tmpAB.png" : String) ≠ "cache/m/8/1/2.png"
    ∧ ((true : Bool) = true →
        fsLookup "cache/m/8/1/2.png" [("cache/m/8/1/2.png", ([9], 438))] ≠ none)
    ∧ ∃ fs' : FS,
      (Disk.save "cache" "cache/m/8/1/2.png" "cache/tmpAB.png" [1, 2] 18 "PNG"
          true false [("cache/m/8/1/2.png", ([9], 438))]).1 = Except.ok fs'
      ∧ fsLookup "cache/m/8/1/2.png" fs' = some ([1, 2], modeOf 18)
      ∧ fsLookup "cache/tmpAB.png" fs' = none
      ∧ (Disk.save "cache" "cache/m/8/1/2.png" "cache/tmpAB.png" [1, 2] 18 "PNG"
          true false [("cache/m/8/1/2.png", ([9], 438))]).2.take 5
          = [FsOp.mkdirs (dirname "cache/m/8/1/2.png"),
             FsOp.mkstemp "cache" ("." ++ pyLower "PNG"),
             FsOp.writeFd [1, 2], FsOp.closeFd,
             FsOp.renameOp "cache/tmpAB.png" "cache/m/8/1/2.png"]
      ∧ (Disk.save "cache" "cache/m/8/1/2.png" "cache/tmpAB.png" [1, 2] 18 "PNG"
          true false [("cache/m/8/1/2.png", ([9], 438))]).2.count
          (FsOp.renameOp "cache/tmpAB.png" "cache/m/8/1/2.png") = (if true then 2 else 1)
      ∧ ((true : Bool) = true →
          FsOp.unlinkOp "cache/m/8/1/2.png"
            ∈ (Disk.save "cache" "cache/m/8/1/2.png" "cache/tmpAB.png" [1, 2] 18 "PNG"
                true false [("cache/m/8/1/2.png", ([9], 438))]).2)
      ∧ (Disk.save "cache" "cache/m/8/1/2.png" "cache/tmpAB.png" [1, 2] 18 "PNG"
          true false [("cache/m/8/1/2.png", ([9], 438))]).2.getLast?
          = some (FsOp.chmodOp "cache/m/8/1/2.png" (modeOf 18)) :=
  ⟨by decide, fun _ => by decide,
   disk_save_atomic_publish "cache" "cache/m/8/1/2.png" "cache/tmpAB.png" [1, 2] 18 "PNG"
     true [("cache/m/8/1/2.png", ([9], 438))] (by decide) (fun _ => by decide)⟩

/- ## Claim C5 -/

/-- Claim C5: `Disk.read` returns `None` exactly when the artifact is absent
or when `cache_lifespan` is non-zero and the artifact's age exceeds it, and
otherwise returns the complete stored bytes; it never unlinks or renames
anything, so an expired artifact stays physically on disk.  With
`cache_lifespan = 60`, a read at age 59 returns the entry and a read at age
61 returns `None`. -/
theorem disk_read_expiry (cache_lifespan : ℚ) (p : String)
    (entry : Option (Bytes × ℚ)) (now : ℚ) :
    ((Disk.read cache_lifespan p entry now).1 = none ↔
      entry = none ∨ ∃ b m, entry = some (b, m) ∧ cache_lifespan ≠ 0
        ∧ now - m > cache_lifespan)
    ∧ (∀ b m, entry = some (b, m) →
        ¬(cache_lifespan ≠ 0 ∧ now - m > cache_lifespan) →
        (Disk.read cache_lifespan p entry now).1 = some b)
    ∧ (∀ q, FsOp.unlinkOp q ∉ (Disk.read cache_lifespan p entry now).2
        ∧ ∀ r, FsOp.renameOp q r ∉ (Disk.read cache_lifespan p entry now).2)
    ∧ (Disk.read 60 p (some ([1], 0)) 59).1 = some [1]
    ∧ (Disk.read 60 p (some ([1], 0)) 61).1 = none := by
  refine ⟨?_, ?_, ?_, ?_, ?_⟩
  · rcases entry with _ | ⟨b, m⟩
    · simp [Disk.read]
    · by_cases h : cache_lifespan ≠ 0 ∧ now - m > cache_lifespan
      · have hr : (Disk.read cache_lifespan p (some (b, m)) now).1 = none := by
          simp [Disk.read, h]
        rw [hr]
        exact iff_of_true rfl (Or.inr ⟨b, m, rfl, h.1, h.2⟩)
      · have hr : (Disk.read cache_lifespan p (some (b, m)) now).1 = some b := by
          simp [Disk.read, h]
        rw [hr]
        apply iff_of_false
        · simp
        · rintro (habs | ⟨b', m', he, h0, hm⟩)
          · exact absurd habs (by simp)
          · obtain ⟨rfl, rfl⟩ : b = b' ∧ m = m' := by
              have h2 := Option.some.inj he
              exact ⟨congrArg Prod.fst h2, congrArg Prod.snd h2⟩
            exact h ⟨h0, hm⟩
  · rintro b m rfl h
    simp [Disk.read, h]
  · intro q
    rcases entry with _ | ⟨b, m⟩
    · simp [Disk.read]
    · by_cases h : cache_lifespan ≠ 0 ∧ now - m > cache_lifespan <;>
        simp [Disk.read, h]
  · norm_num [Disk.read]
  · norm_num [Disk.read]

/-- Witness for `disk_read_expiry`: a fresh entry (age 59 under lifespan 60)
is returned intact. -/
theorem disk_read_expiry_witness :
    (some ([2, 3], (0 : ℚ)) = some (([2, 3] : Bytes), (0 : ℚ)))
    ∧ ¬((60 : ℚ) ≠ 0 ∧ (59 : ℚ) - 0 > 60)
    ∧ (Disk.read 60 "markers/8/x/y.png" (some ([2, 3], 0)) 59).1 = some [2, 3] :=
  ⟨rfl, by norm_num,
   (disk_read_expiry 60 "markers/8/x/y.png" (some ([2, 3], 0)) 59).2.1 [2, 3] 0 rfl
     (by norm_num)⟩

/- ## Claim C4 -/

/-- Claim C4's concrete scenario is wrong about the latitude bucket: layer
"markers", size 600x300, zoom 8, center (lat 12.0, lon -35.0), no overlay,
format png yields `markers/8/1450000/1020000_600x300.png` — the latitude
component is `(12+90)*10000 = 1020000`, not the claimed `1220000`. -/
theorem filepath_scenario_counterexample :
    Disk.filepath "markers" ⟨600, 300, 8, some ⟨12, -35⟩, none, none⟩ "png"
      = Except.ok "markers/8/1450000/1020000_600x300.png"
    ∧ Disk.filepath "markers" ⟨600, 300, 8, some ⟨12, -35⟩, none, none⟩ "png"
      ≠ Except.ok "markers/8/1450000/1220000_600x300.png" := by
  have e1 : pyInt ((((⟨12, -35⟩ : PLoc).lon) + 180) * 10000) = 1450000 := by
    norm_num [pyInt]
  have e2 : pyInt ((((⟨12, -35⟩ : PLoc).lat) + 90) * 10000) = 1020000 := by
    norm_num [pyInt]
  have heq : Disk.filepath "markers" ⟨600, 300, 8, some ⟨12, -35⟩, none, none⟩ "png"
      = Except.ok "markers/8/1450000/1020000_600x300.png" := by
    simp only [Disk.filepath, e1, e2]
    exact congrArg Except.ok (by decide)
  refine ⟨heq, ?_⟩
  rw [heq]
  intro h
  injection h with h'
  exact absurd h' (by decide)

/-- Claim C4 (amended): for any staticmap whose center is set to valid
coordinates (latitude at least -90, longitude at least -180, where Python's
`int()` truncation agrees with `floor`), `Disk._filepath` is
`layer/zoom/floor((lon+180)*10000)/floor((lat+90)*10000)_WxH[_icon].ext`
with the icon segment (basename with `.` replaced by `-`) present exactly
when a marker is, and a path-carrying request producing the identical
filename to a plain request; the C4 scenario yields
`markers/8/1450000/1020000_600x300.png`. -/
theorem filepath_formula (layerName : String) (sm : StaticMapsQ) (c : PLoc)
    (format : String) (hc : sm.center = some c)
    (hlat : -90 ≤ c.lat) (hlon : -180 ≤ c.lon) :
    Disk.filepath layerName sm format
      = Except.ok (layerName ++ "/" ++ toString sm.zoom ++ "/"
          ++ toString ⌊(c.lon + 180) * 10000⌋ ++ "/"
          ++ toString ⌊(c.lat + 90) * 10000⌋ ++ "_"
          ++ toString sm.width ++ "x" ++ toString sm.height
          ++ (match sm.marker with
              | some m => "_" ++ (basename m.icon).replace "." "-"
              | none => "")
          ++ "." ++ pyLower format)
    ∧ (∀ pa : PPath,
        Disk.filepath layerName { sm with marker := none, path := some pa } format
          = Disk.filepath layerName { sm with marker := none, path := none } format) := by
  have hx : pyInt ((c.lon + 180) * 10000) = ⌊(c.lon + 180) * 10000⌋ := by
    rw [pyInt, if_pos (by nlinarith)]
  have hy : pyInt ((c.lat + 90) * 10000) = ⌊(c.lat + 90) * 10000⌋ := by
    rw [pyInt, if_pos (by nlinarith)]
  constructor
  · rcases hm : sm.marker with _ | m
    · rcases hp : sm.path with _ | pa <;>
        simp only [Disk.filepath, hc, hx, hy, hm, hp] <;>
        simp [String.append_assoc]
    · simp only [Disk.filepath, hc, hx, hy, hm]
      simp [String.append_assoc]
  · intro pa
    simp [Disk.filepath, hc]

/-- Witness for `filepath_formula`: a marker request at center
(lat 12, lon -35) with icon `http://e/icons/pin.png`, and a path request
agreeing with a plain one. -/
theorem filepath_formula_witness :
    ((⟨600, 300, 8, some ⟨12, -35⟩,
        some ⟨⟨12, -35⟩, "http://e/icons/pin.png"⟩, none⟩ : StaticMapsQ).center
      = some ⟨12, -35⟩)
    ∧ (-90 : ℚ) ≤ 12 ∧ (-180 : ℚ) ≤ -35
    ∧ Disk.filepath "markers"
        ⟨600, 300, 8, some ⟨12, -35⟩, some ⟨⟨12, -35⟩, "http://e/icons/pin.png"⟩, none⟩ "png"
      = Except.ok ("markers" ++ "/" ++ toString (8 : ℤ) ++ "/"
          ++ toString ⌊(((-35 : ℚ)) + 180) * 10000⌋ ++ "/"
          ++ toString ⌊(((12 : ℚ)) + 90) * 10000⌋ ++ "_"
          ++ toString (600 : ℕ) ++ "x" ++ toString (300 : ℕ)
          ++ ("_" ++ (basename "http://e/icons/pin.png").replace "." "-")
          ++ "." ++ pyLower "png")
    ∧ Disk.filepath "markers" ⟨600, 300, 8, some ⟨12, -35⟩, none, some ⟨[]⟩⟩ "png"
      = Disk.filepath "markers" ⟨600, 300, 8, some ⟨12, -35⟩, none, none⟩ "png" := by
  refine ⟨rfl, by norm_num, by norm_num, ?_, ?_⟩
  · exact (filepath_formula "markers"
      ⟨600, 300, 8, some ⟨12, -35⟩, some ⟨⟨12, -35⟩, "http://e/icons/pin.png"⟩, none⟩
      ⟨12, -35⟩ "png" rfl (by norm_num) (by norm_num)).1
  · exact (filepath_formula "markers"
      ⟨600, 300, 8, some ⟨12, -35⟩, none, none⟩
      ⟨12, -35⟩ "png" rfl (by norm_num) (by norm_num)).2 ⟨[]⟩

/- ## Claim C7 -/

/-- Claim C7 describes intended behaviour the code does not implement: for a
plain center request (no marker, no path) the WSGI handler parses the
`center` query parameter into local variables that are never stored, so the
staticmap's center remains `None`, and cache-key derivation then fails with
an `AttributeError` (`None.lon`) instead of succeeding — even for the
module docstring's own example request `?size=600x300&center=12,-35`. -/
theorem plain_center_request_loses_center :
    (wsgiBuildPlainStaticMap 600 300 8 (12, -35)).center = none
    ∧ Disk.filepath "markers" (wsgiBuildPlainStaticMap 600 300 8 (12, -35)) "png"
      = Except.error PyErr.attributeError :=
  ⟨rfl, rfl⟩

/- ## Claims C6 and C9: addPath -/

/-- Evaluation of `StaticMaps.addPath` on a non-degenerate bounding box:
given the bounding-box values of the points and both axis quantities
positive, `addPath` succeeds, the center is the box midpoint and the zoom is
`min(zoomLat, zoomLon) - 180` with truncated base-2 logs. -/
theorem addPath_bounding (sm : StaticMapsR) (pts : List (ℝ × ℝ))
    (mLat MLat mLon MLon : ℝ)
    (h1 : pyListMin (pts.map Prod.fst) = some mLat)
    (h2 : pyListMax (pts.map Prod.fst) = some MLat)
    (h3 : pyListMin (pts.map Prod.snd) = some mLon)
    (h4 : pyListMax (pts.map Prod.snd) = some MLon)
    (hx : 0 < ((MLat - mLat) * mercRadius * Real.pi) / (180 * sm.height))
    (hy : 0 < ((MLon - mLon) * mercRadius * Real.pi) / (180 * sm.width)) :
    StaticMaps.addPath sm pts
      = Except.ok { sm with
          path := some (pts.foldl (fun pa p => pa.addLoc p.1 p.2) ⟨none, "F00", 1, []⟩),
          center := some ⟨(mLat + MLat) / 2, (mLon + MLon) / 2⟩,
          zoom := min
            (21 - pyTruncR (Real.logb 2
              (((MLon - mLon) * mercRadius * Real.pi) / (180 * sm.width))))
            (21 - pyTruncR (Real.logb 2
              (((MLat - mLat) * mercRadius * Real.pi) / (180 * sm.height)))) - 180 } := by
  simp only [StaticMaps.addPath, h1, h2, h3, h4]
  rw [if_neg (not_le.mpr hx), if_neg (not_le.mpr hy)]

/-- Claim C9 fails on the code: a path consisting of a single point — a case
the spec explicitly admits (`points: ... (≥1)`) — makes `addPath` raise: the
latitude extent is zero, so `math.log(x, 2)` is called on `x = 0` and throws
a math-domain `ValueError`; no center/zoom is ever produced. -/
theorem addPath_single_point_counterexample :
    StaticMaps.addPath ⟨600, 300, 8, none, none, none⟩ [(0, 0)]
      = Except.error PyErr.mathDomain := by
  have hmin : pyListMin ([((0 : ℝ), (0 : ℝ))].map Prod.fst) = some 0 := by
    simp [pyListMin]
  have hmax : pyListMax ([((0 : ℝ), (0 : ℝ))].map Prod.fst) = some 0 := by
    simp [pyListMax]
  have hmin2 : pyListMin ([((0 : ℝ), (0 : ℝ))].map Prod.snd) = some 0 := by
    simp [pyListMin]
  have hmax2 : pyListMax ([((0 : ℝ), (0 : ℝ))].map Prod.snd) = some 0 := by
    simp [pyListMax]
  simp only [StaticMaps.addPath, hmin, hmax, hmin2, hmax2]
  rw [if_pos (by norm_num)]

/-- Claim C9 (amended): for every path whose points span a strictly positive
extent on both axes (and positive image dimensions), `addPath` completes
without raising and yields a defined center (the bounding-box midpoint) and
a defined zoom; the spec-admitted degenerate cases — a single point, or all
points sharing one latitude or one longitude — instead raise a math-domain
error, as `addPath_single_point_counterexample` shows. -/
theorem addPath_positive_extent_total (sm : StaticMapsR) (pts : List (ℝ × ℝ))
    (mLat MLat mLon MLon : ℝ)
    (h1 : pyListMin (pts.map Prod.fst) = some mLat)
    (h2 : pyListMax (pts.map Prod.fst) = some MLat)
    (h3 : pyListMin (pts.map Prod.snd) = some mLon)
    (h4 : pyListMax (pts.map Prod.snd) = some MLon)
    (hw : 0 < sm.width) (hh : 0 < sm.height)
    (hlat : mLat < MLat) (hlon : mLon < MLon) :
    ∃ s : StaticMapsR, StaticMaps.addPath sm pts = Except.ok s
      ∧ s.center = some ⟨(mLat + MLat) / 2, (mLon + MLon) / 2⟩ := by
  have hmr : (0 : ℝ) < mercRadius := by norm_num [mercRadius]
  have hhr : (0 : ℝ) < (sm.height : ℝ) := by exact_mod_cast hh
  have hwr : (0 : ℝ) < (sm.width : ℝ) := by exact_mod_cast hw
  have hx : 0 < ((MLat - mLat) * mercRadius * Real.pi) / (180 * sm.height) :=
    div_pos (mul_pos (mul_pos (by linarith) hmr) Real.pi_pos)
      (mul_pos (by norm_num) hhr)
  have hy : 0 < ((MLon - mLon) * mercRadius * Real.pi) / (180 * sm.width) :=
    div_pos (mul_pos (mul_pos (by linarith) hmr) Real.pi_pos)
      (mul_pos (by norm_num) hwr)
  exact ⟨_, addPath_bounding sm pts mLat MLat mLon MLon h1 h2 h3 h4 hx hy, rfl⟩

/-- Witness for `addPath_positive_extent_total`: the two-point path
(0,0)-(1,1) on a 600x300 image succeeds with center (1/2, 1/2). -/
theorem addPath_positive_extent_total_witness :
    pyListMin ([((0 : ℝ), (0 : ℝ)), (1, 1)].map Prod.fst) = some 0
    ∧ pyListMax ([((0 : ℝ), (0 : ℝ)), (1, 1)].map Prod.fst) = some 1
    ∧ (0 : ℝ) < 1
    ∧ ∃ s : StaticMapsR,
        StaticMaps.addPath ⟨600, 300, 8, none, none, none⟩ [(0, 0), (1, 1)]
          = Except.ok s
        ∧ s.center = some ⟨(0 + 1) / 2, (0 + 1) / 2⟩ := by
  refine ⟨?_, ?_, by norm_num, ?_⟩
  · simp [pyListMin]
  · simp [pyListMax]
  · exact addPath_positive_extent_total ⟨600, 300, 8, none, none, none⟩
      [(0, 0), (1, 1)] 0 1 0 1
      (by simp [pyListMin]) (by simp [pyListMax, max_def])
      (by simp [pyListMin, min_def]) (by simp [pyListMax, max_def])
      (by norm_num) (by norm_num) (by norm_num) (by norm_num)

/-- Claim C6 fails on the code in its rounding mode: the source computes
`int(math.log(x, 2))`, truncation toward zero, not `floor(log2(x))`.  For
the two-point path (0,0)-(0.0001,0.0001) on a 600x300 image both axis
quantities lie in (0,1) (logs are negative), so truncation and floor differ:
the code produces zoom `min(23, 22) - 180 = -158`, while the claim's
floor-based formula gives `min(24, 23) - 180 = -157`. -/
theorem addPath_zoom_floor_counterexample :
    (StaticMaps.addPath ⟨600, 300, 8, none, none, none⟩
        [(0, 0), (1/10000, 1/10000)]).map StaticMapsR.zoom = Except.ok (-158)
    ∧ specPathZoomFloor (1/10000) (1/10000) 600 300 = -157
    ∧ ((-158 : ℤ) ≠ -157) := by
  have hA1 : (1/4 : ℝ) < 1 / 10000 * mercRadius * Real.pi / 54000 := by
    rw [lt_div_iff₀ (by norm_num)]
    norm_num [mercRadius]
    nlinarith [Real.pi_gt_d2]
  have hA2 : (1 / 10000 * mercRadius * Real.pi / 54000 : ℝ) < 1/2 := by
    rw [div_lt_iff₀ (by norm_num)]
    norm_num [mercRadius]
    nlinarith [Real.pi_lt_d2]
  have hB1 : (1/8 : ℝ) < 1 / 10000 * mercRadius * Real.pi / 108000 := by
    rw [lt_div_iff₀ (by norm_num)]
    norm_num [mercRadius]
    nlinarith [Real.pi_gt_d2]
  have hB2 : (1 / 10000 * mercRadius * Real.pi / 108000 : ℝ) < 1/4 := by
    rw [div_lt_iff₀ (by norm_num)]
    norm_num [mercRadius]
    nlinarith [Real.pi_lt_d2]
  have hApos : (0 : ℝ) < 1 / 10000 * mercRadius * Real.pi / 54000 := by linarith
  have hBpos : (0 : ℝ) < 1 / 10000 * mercRadius * Real.pi / 108000 := by linarith
  have h2r1 : (2:ℝ) ^ ((-1 : ℝ)) = 1/2 := by
    rw [show (-1:ℝ) = ((-1:ℤ):ℝ) from by norm_num, Real.rpow_intCast]
    norm_num
  have h2r2 : (2:ℝ) ^ ((-2 : ℝ)) = 1/4 := by
    rw [show (-2:ℝ) = ((-2:ℤ):ℝ) from by norm_num, Real.rpow_intCast]
    norm_num
  have h2r3 : (2:ℝ) ^ ((-3 : ℝ)) = 1/8 := by
    rw [show (-3:ℝ) = ((-3:ℤ):ℝ) from by norm_num, Real.rpow_intCast]
    norm_num
  have hlogA1 : Real.logb 2 (1 / 10000 * mercRadius * Real.pi / 54000) < -1 := by
    rw [Real.logb_lt_iff_lt_rpow (by norm_num) hApos, h2r1]
    exact hA2
  have hlogA2 : (-2 : ℝ) < Real.logb 2 (1 / 10000 * mercRadius * Real.pi / 54000) := by
    rw [Real.lt_logb_iff_rpow_lt (by norm_num) hApos, h2r2]
    exact hA1
  have hlogB1 : Real.logb 2 (1 / 10000 * mercRadius * Real.pi / 108000) < -2 := by
    rw [Real.logb_lt_iff_lt_rpow (by norm_num) hBpos, h2r2]
    exact hB2
  have hlogB2 : (-3 : ℝ) < Real.logb 2 (1 / 10000 * mercRadius * Real.pi / 108000) := by
    rw [Real.lt_logb_iff_rpow_lt (by norm_num) hBpos, h2r3]
    exact hB1
  have htruncA : pyTruncR (Real.logb 2 (1 / 10000 * mercRadius * Real.pi / 54000)) = -1 := by
    rw [pyTruncR, if_neg (not_le.mpr (by linarith))]
    exact Int.ceil_eq_iff.mpr ⟨by push_cast; linarith, by push_cast; linarith⟩
  have htruncB : pyTruncR (Real.logb 2 (1 / 10000 * mercRadius * Real.pi / 108000)) = -2 := by
    rw [pyTruncR, if_neg (not_le.mpr (by linarith))]
    exact Int.ceil_eq_iff.mpr ⟨by push_cast; linarith, by push_cast; linarith⟩
  have hfloorA : ⌊Real.logb 2 (1 / 10000 * mercRadius * Real.pi / 54000)⌋ = -2 :=
    Int.floor_eq_iff.mpr ⟨by push_cast; linarith, by push_cast; linarith⟩
  have hfloorB : ⌊Real.logb 2 (1 / 10000 * mercRadius * Real.pi / 108000)⌋ = -3 :=
    Int.floor_eq_iff.mpr ⟨by push_cast; linarith, by push_cast; linarith⟩
  refine ⟨?_, ?_, by decide⟩
  · have h1 : pyListMin ([((0:ℝ),(0:ℝ)), (1/10000, 1/10000)].map Prod.fst) = some 0 := by
      norm_num [pyListMin, min_def]
    have h2 : pyListMax ([((0:ℝ),(0:ℝ)), (1/10000, 1/10000)].map Prod.fst)
        = some (1/10000) := by
      norm_num [pyListMax, max_def]
    have h3 : pyListMin ([((0:ℝ),(0:ℝ)), (1/10000, 1/10000)].map Prod.snd) = some 0 := by
      norm_num [pyListMin, min_def]
    have h4 : pyListMax ([((0:ℝ),(0:ℝ)), (1/10000, 1/10000)].map Prod.snd)
        = some (1/10000) := by
      norm_num [pyListMax, max_def]
    have heval := addPath_bounding ⟨600, 300, 8, none, none, none⟩
      [(0, 0), (1/10000, 1/10000)] 0 (1/10000) 0 (1/10000) h1 h2 h3 h4
      (by norm_num [mercRadius]; positivity) (by norm_num [mercRadius]; positivity)
    rw [heval]
    norm_num [htruncA, htruncB]
    rfl
  · simp only [specPathZoomFloor, specAxisZoomFloor]
    norm_num [hfloorA, hfloorB]

/-- Claim C6 (amended): for every path request with a non-degenerate
bounding box (strictly positive extent on both axes, positive image
dimensions), `addPath` sets the map center to the bounding-box midpoint
`((minLat+maxLat)/2, (minLon+maxLon)/2)` and the zoom to
`min(zoomLat, zoomLon) - 180`, where each per-axis zoom is
`21 - int(log2(x))` with Python's `int` truncating toward zero (floor only
when `x ≥ 1`) and `x` the axis's degree extent times pi times
85445659.44705395 divided by 180 times the corresponding image dimension;
any caller-supplied zoom is discarded and replaced by this value. -/
theorem addPath_zoom_trunc (sm : StaticMapsR) (pts : List (ℝ × ℝ))
    (mLat MLat mLon MLon : ℝ)
    (h1 : pyListMin (pts.map Prod.fst) = some mLat)
    (h2 : pyListMax (pts.map Prod.fst) = some MLat)
    (h3 : pyListMin (pts.map Prod.snd) = some mLon)
    (h4 : pyListMax (pts.map Prod.snd) = some MLon)
    (hw : 0 < sm.width) (hh : 0 < sm.height)
    (hlat : mLat < MLat) (hlon : mLon < MLon) :
    StaticMaps.addPath sm pts
      = Except.ok { sm with
          path := some (pts.foldl (fun pa p => pa.addLoc p.1 p.2) ⟨none, "F00", 1, []⟩),
          center := some ⟨(mLat + MLat) / 2, (mLon + MLon) / 2⟩,
          zoom := specPathZoomTrunc (MLat - mLat) (MLon - mLon) sm.width sm.height }
    ∧ (∀ z' : ℤ, (StaticMaps.addPath { sm with zoom := z' } pts).map StaticMapsR.zoom
        = (StaticMaps.addPath sm pts).map StaticMapsR.zoom) := by
  have hmr : (0 : ℝ) < mercRadius := by norm_num [mercRadius]
  have hhr : (0 : ℝ) < (sm.height : ℝ) := by exact_mod_cast hh
  have hwr : (0 : ℝ) < (sm.width : ℝ) := by exact_mod_cast hw
  have hx : 0 < ((MLat - mLat) * mercRadius * Real.pi) / (180 * sm.height) :=
    div_pos (mul_pos (mul_pos (by linarith) hmr) Real.pi_pos)
      (mul_pos (by norm_num) hhr)
  have hy : 0 < ((MLon - mLon) * mercRadius * Real.pi) / (180 * sm.width) :=
    div_pos (mul_pos (mul_pos (by linarith) hmr) Real.pi_pos)
      (mul_pos (by norm_num) hwr)
  constructor
  · rw [addPath_bounding sm pts mLat MLat mLon MLon h1 h2 h3 h4 hx hy]
    simp [specPathZoomTrunc, specAxisZoomTrunc]
  · intro z'
    rw [addPath_bounding sm pts mLat MLat mLon MLon h1 h2 h3 h4 hx hy,
        addPath_bounding { sm with zoom := z' } pts mLat MLat mLon MLon h1 h2 h3 h4 hx hy]

/-- Witness for `addPath_zoom_trunc`: the two-point path (0,0)-(1,1) on a
600x300 image, with a caller-supplied zoom of 99 that gets discarded. -/
theorem addPath_zoom_trunc_witness :
    pyListMin ([((0 : ℝ), (0 : ℝ)), (1, 1)].map Prod.fst) = some 0
    ∧ (0 : ℝ) < 1
    ∧ StaticMaps.addPath ⟨600, 300, 8, none, none, none⟩ [(0, 0), (1, 1)]
        = Except.ok
            { width := 600, height := 300,
              zoom := specPathZoomTrunc (1 - 0) (1 - 0) 600 300,
              center := some ⟨(0 + 1) / 2, (0 + 1) / 2⟩, marker := none,
              path := some ([((0:ℝ),(0:ℝ)), (1, 1)].foldl
                (fun pa p => pa.addLoc p.1 p.2) ⟨none, "F00", 1, []⟩) }
    ∧ (StaticMaps.addPath ⟨600, 300, 99, none, none, none⟩ [(0, 0), (1, 1)]).map
        StaticMapsR.zoom
      = (StaticMaps.addPath ⟨600, 300, 8, none, none, none⟩ [(0, 0), (1, 1)]).map
        StaticMapsR.zoom := by
  have hmm := addPath_zoom_trunc ⟨600, 300, 8, none, none, none⟩ [(0, 0), (1, 1)]
    0 1 0 1
    (by simp [pyListMin]) (by simp [pyListMax, max_def])
    (by simp [pyListMin, min_def]) (by simp [pyListMax, max_def])
    (by norm_num) (by norm_num) (by norm_num) (by norm_num)
  exact ⟨by simp [pyListMin], by norm_num, hmm.1, hmm.2 99⟩

/- ## Claim C8: projection round-trip -/

/-- `0.5 * log((1+f)/(1-f))` — the Mercator latitude stretch appearing in
`ll2px` (line 83).  Factored out for the round-trip proof. -/
noncomputable def mercL (f : ℝ) : ℝ := 0.5 * Real.log ((1 + f) / (1 - f))

/-- Python 2 `int(round(v))` differs from `v` by at most half a unit. -/
theorem pyRound_abs (v : ℝ) : |((pyRound v : ℤ) : ℝ) - v| ≤ 1/2 := by
  rw [pyRound]
  split
  · rw [abs_le]
    constructor
    · have := Int.lt_floor_add_one (v + 1/2)
      linarith
    · have := Int.floor_le (v + 1/2)
      linarith
  · rw [abs_le]
    constructor
    · have := Int.le_ceil (v - 1/2)
      linarith
    · have := Int.ceil_lt_add_one (v - 1/2)
      linarith

/-- The sine clamp of `ll2px` always lands in `[-0.9999, 0.9999]`. -/
theorem clampSin_mem (s : ℝ) : -0.9999 ≤ clampSin s ∧ clampSin s ≤ 0.9999 := by
  rw [clampSin]
  split
  · norm_num
  · split
    · norm_num
    · constructor <;> norm_num at * <;> linarith

/-- `mercL` is monotone on `(-1, 1)`. -/
theorem mercL_mono {f g : ℝ} (hf : -1 < f) (hfg : f ≤ g) (hg : g < 1) :
    mercL f ≤ mercL g := by
  have h1g : (0:ℝ) < 1 - g := by linarith
  have h1f : (0:ℝ) < 1 - f := by linarith
  have h0f : (0:ℝ) < 1 + f := by linarith
  have hq : (1 + f) / (1 - f) ≤ (1 + g) / (1 - g) := by
    rw [div_le_div_iff₀ h1f h1g]
    nlinarith
  exact mul_le_mul_of_nonneg_left
    (Real.log_le_log (div_pos h0f h1f) hq) (by norm_num)

theorem mercL_clamp_hi : mercL (0.9999 : ℝ) = 0.5 * Real.log 19999 := by
  rw [mercL]
  norm_num

theorem mercL_clamp_lo : mercL (-0.9999 : ℝ) = -(0.5 * Real.log 19999) := by
  rw [mercL]
  rw [show ((1 + -0.9999) / (1 - -0.9999) : ℝ) = (19999:ℝ)⁻¹ from by norm_num]
  rw [Real.log_inv]
  ring

/-- The sine of the latitude `px2ll` reconstructs from a vertical offset `b`
is `tanh b` written out: `(e^{2b} - 1) / (e^{2b} + 1)`. -/
theorem sin_mercator_inverse (b : ℝ) :
    Real.sin (((2 * Real.arctan (Real.exp b) - Real.pi / 2) / (Real.pi / 180))
        * Real.pi / 180)
      = (Real.exp (2*b) - 1) / (Real.exp (2*b) + 1) := by
  have harg : ((2 * Real.arctan (Real.exp b) - Real.pi / 2) / (Real.pi / 180))
      * Real.pi / 180 = 2 * Real.arctan (Real.exp b) - Real.pi / 2 := by
    field_simp
    ring
  rw [harg, Real.sin_sub_pi_div_two, Real.cos_two_mul, Real.cos_sq_arctan]
  have h2 : Real.exp b ^ 2 = Real.exp (2*b) := by
    rw [← Real.exp_nat_mul]; norm_num
  rw [h2]
  have ht : (0:ℝ) < 1 + Real.exp (2*b) := by positivity
  field_simp
  ring

/-- Core of claim C8, vertical axis: if `y` is within half a pixel of the
unrounded forward coordinate of a clamped sine `f`, then re-applying the
(clamped) forward map to the latitude `px2ll` reconstructs from `y` lands
within one pixel of the original forward coordinate.  When the
reconstructed sine is inside the clamp window the round trip is exact up to
the rounding (`mercL s = b`); when it falls outside, the clamp pulls it to
`±0.9999`, which lies between `y` and the original coordinate, so the error
can only shrink. -/
theorem mercator_y_roundtrip (cbk cfk : ℝ) (hcfk : 0 < cfk) (f y : ℝ)
    (hf1 : -0.9999 ≤ f) (hf2 : f ≤ 0.9999)
    (hy : |y - (cbk + mercL f * (-cfk))| ≤ 1/2) :
    |(cbk + mercL (clampSin (Real.sin
        (((2 * Real.arctan (Real.exp ((y - cbk) / (-cfk))) - Real.pi / 2)
          / (Real.pi / 180)) * Real.pi / 180))) * (-cfk))
      - (cbk + mercL f * (-cfk))| ≤ 1 := by
  have hcfk0 : (-cfk) ≠ 0 := neg_ne_zero.mpr (ne_of_gt hcfk)
  set b := (y - cbk) / (-cfk) with hb_def
  have hyb : cbk + b * (-cfk) = y := by
    rw [hb_def, div_mul_cancel₀ _ hcfk0]
    ring
  rw [sin_mercator_inverse b]
  set u := Real.exp (2*b) with hu_def
  have hu : 0 < u := Real.exp_pos _
  have hup : (0:ℝ) < u + 1 := by linarith
  set s := (u - 1) / (u + 1) with hs_def
  have hlogu : Real.log u = 2 * b := by rw [hu_def, Real.log_exp]
  have hy' := abs_le.mp hy
  rcases lt_or_le (0.9999 : ℝ) s with hsgt | hsle
  · have hclamp : clampSin s = 0.9999 := by
      rw [clampSin, if_neg (not_lt.mpr (by linarith)), if_pos hsgt]
    have hu19 : (19999:ℝ) < u := by
      rw [hs_def, lt_div_iff₀ hup] at hsgt
      linarith
    have hb19 : 0.5 * Real.log 19999 < b := by
      have hlog : Real.log 19999 < Real.log u := Real.log_lt_log (by norm_num) hu19
      rw [hlogu] at hlog
      linarith
    have hLf : mercL f ≤ 0.5 * Real.log 19999 := by
      have h := mercL_mono (f := f) (g := 0.9999) (by linarith) hf2 (by norm_num)
      rw [mercL_clamp_hi] at h
      exact h
    rw [hclamp, mercL_clamp_hi]
    rw [abs_le]
    constructor
    · nlinarith [mul_pos hcfk (sub_pos.mpr hb19),
        mul_nonneg hcfk.le (sub_nonneg.mpr hLf)]
    · nlinarith [mul_pos hcfk (sub_pos.mpr hb19),
        mul_nonneg hcfk.le (sub_nonneg.mpr hLf)]
  · rcases lt_or_le s (-0.9999 : ℝ) with hslt | hsge
    · have hclamp : clampSin s = -0.9999 := by
        rw [clampSin, if_pos hslt]
      have hu19 : u < (19999:ℝ)⁻¹ := by
        rw [hs_def, div_lt_iff₀ hup] at hslt
        linarith
      have hb19 : b < -(0.5 * Real.log 19999) := by
        have hlog : Real.log u < Real.log (19999:ℝ)⁻¹ := Real.log_lt_log hu hu19
        rw [Real.log_inv, hlogu] at hlog
        linarith
      have hLf : -(0.5 * Real.log 19999) ≤ mercL f := by
        have h := mercL_mono (f := -0.9999) (g := f) (by norm_num) hf1 (by linarith)
        rw [mercL_clamp_lo] at h
        exact h
      rw [hclamp, mercL_clamp_lo]
      rw [abs_le]
      constructor
      · nlinarith [mul_pos hcfk (sub_pos.mpr hb19),
          mul_nonneg hcfk.le (sub_nonneg.mpr hLf)]
      · nlinarith [mul_pos hcfk (sub_pos.mpr hb19),
          mul_nonneg hcfk.le (sub_nonneg.mpr hLf)]
    · have hclamp : clampSin s = s := by
        rw [clampSin, if_neg (not_lt.mpr hsge), if_neg (not_lt.mpr hsle)]
      have hLs : mercL s = b := by
        rw [mercL]
        have h2pos : (0:ℝ) < 1 - (u - 1) / (u + 1) := by
          rw [sub_pos, div_lt_one hup]
          linarith
        have hratio : (1 + s) / (1 - s) = u := by
          rw [hs_def, div_eq_iff (ne_of_gt h2pos)]
          field_simp
          ring
        rw [hratio, hlogu]
        ring
      rw [hclamp, hLs, hyb]
      exact le_trans hy (by norm_num)

/-- The per-zoom scale constants of the source's tables are positive for
every valid zoom `0..30`. -/
theorem CEK_CFK_pos {z : ℕ} (hz : z ≤ 30) : 0 < CEK z ∧ 0 < CFK z := by
  interval_cases z <;> constructor <;> norm_num [CEK, CEKtable, CFK, CFKtable]

/-- Claim C8: for every latitude, longitude and zoom in `[0, 30]`,
`px2ll (ll2px lat lng zoom) zoom` reproduces `(lat, lng)` to within one
pixel's worth of geographic resolution at that zoom.  "One pixel's worth"
is formalised in pixel units: pushing the round-tripped coordinates back
through the unrounded forward map (`xFwd`, `yFwd` — exactly the expressions
`ll2px` rounds) lands within one pixel of the original point's forward
image.  The longitude error is at most the half-pixel rounding; the
latitude error is at most half a pixel plus the effect of the `±0.9999`
sine clamp, which never adds more than the rounding already lost. -/
theorem ll2px_px2ll_roundtrip (lat lng : ℝ) (zoom : ℕ)
    (_hlat : |lat| ≤ 90) (_hlng : |lng| ≤ 180) (hz : zoom ≤ 30) :
    |xFwd (px2ll (ll2px lat lng zoom).1 (ll2px lat lng zoom).2 zoom).2 zoom
      - xFwd lng zoom| ≤ 1
    ∧ |yFwd (px2ll (ll2px lat lng zoom).1 (ll2px lat lng zoom).2 zoom).1 zoom
      - yFwd lat zoom| ≤ 1 := by
  obtain ⟨hcek, hcfk⟩ := CEK_CFK_pos hz
  constructor
  · show |CBK zoom + (((pyRound (CBK zoom + lng * CEK zoom) : ℤ) : ℝ) - CBK zoom)
        / CEK zoom * CEK zoom - (CBK zoom + lng * CEK zoom)| ≤ 1
    rw [div_mul_cancel₀ _ (ne_of_gt hcek)]
    have h := pyRound_abs (CBK zoom + lng * CEK zoom)
    have heq : CBK zoom + (((pyRound (CBK zoom + lng * CEK zoom) : ℤ) : ℝ) - CBK zoom)
        - (CBK zoom + lng * CEK zoom)
        = ((pyRound (CBK zoom + lng * CEK zoom) : ℤ) : ℝ)
          - (CBK zoom + lng * CEK zoom) := by
      ring
    rw [heq]
    linarith
  · obtain ⟨hf1, hf2⟩ := clampSin_mem (Real.sin (lat * Real.pi / 180))
    have hy : |((pyRound (yFwd lat zoom) : ℤ) : ℝ)
        - (CBK zoom + mercL (clampSin (Real.sin (lat * Real.pi / 180)))
            * (-(CFK zoom)))| ≤ 1/2 :=
      pyRound_abs (yFwd lat zoom)
    exact mercator_y_roundtrip (CBK zoom) (CFK zoom) hcfk
      (clampSin (Real.sin (lat * Real.pi / 180)))
      ((pyRound (yFwd lat zoom) : ℤ) : ℝ) hf1 hf2 hy

/-- Witness for `ll2px_px2ll_roundtrip` at the origin and zoom 0. -/
theorem ll2px_px2ll_roundtrip_witness :
    |(0 : ℝ)| ≤ 90 ∧ |(0 : ℝ)| ≤ 180 ∧ (0 : ℕ) ≤ 30
    ∧ (|xFwd (px2ll (ll2px 0 0 0).1 (ll2px 0 0 0).2 0).2 0 - xFwd 0 0| ≤ 1
       ∧ |yFwd (px2ll (ll2px 0 0 0).1 (ll2px 0 0 0).2 0).1 0 - yFwd 0 0| ≤ 1) :=
  ⟨by norm_num, by norm_num, by norm_num,
   ll2px_px2ll_roundtrip 0 0 0 (by norm_num) (by norm_num) (by norm_num)⟩
